import Mathlib

/-!
Shallow embedding of `src/main.py` — a personal reminder application
consisting of a JSON-backed persistence layer (`Store`) and a polling
scheduler (`Scheduler`) — together with theorems settling the claims of
the natural-language specification against this embedding.

Modelling choices (documented inline at each definition):
* Wall-clock inputs (current "HH:MM" string, today's ISO date string,
  the millisecond timestamp used as an id) are passed explicitly to the
  functions that read the clock in the source.
* The persisted file is part of the `Store` state (`Arquivo`), so "was
  persisted" is the statement that the `arquivo` component holds the
  document that `salvar` wrote.
* Exceptions of fallible operations are modelled explicitly: a failing
  `salvar` inside the scheduler's fired-mark update is driven by an
  injected oracle, and a raising notification callback is driven by an
  injected oracle whose raising is caught exactly where the source has
  `try`/`except`.
-/

namespace Lembretes

/-- A reminder record, exactly the dict built by `Store.adicionar` in
`src/main.py` (keys `id`, `texto`, `horario`, `ativo`,
`ultimo_disparo_em`; `ultimo_disparo_em` is `null` or an ISO date
string). -/
structure Item where
  id : Int
  texto : String
  horario : String
  ativo : Bool
  ultimo_disparo_em : Option String
deriving DecidableEq

/-- The store's in-memory JSON document `self.dados`.  The source only
ever reads the `"lembretes"` key (always via `dict.get` or
`dict.setdefault`), so the document is modelled as the optional value of
that key; `lembretes = none` models a JSON object in which the key is
absent. -/
structure Dados where
  lembretes : Option (List Item)
deriving DecidableEq

/-- The state of the file at the store's path: missing, present but
unreadable/not-JSON (so that `json.load` raises), or present and parsed
to a document. -/
inductive Arquivo where
  | ausente
  | corrompido
  | doc (d : Dados)
deriving DecidableEq

/-- The `Store` object: the in-memory document plus the persisted file
at `self.caminho`. -/
structure Store where
  dados : Dados
  arquivo : Arquivo
deriving DecidableEq

/-- The empty document `{"lembretes": []}` that `Store.__init__`
installs before loading. -/
def vazio : Dados := ⟨some []⟩

/-- `validar_horario` (src/main.py:25-30): `datetime.strptime(hhmm,
"%H:%M")` inside `try`/`except`.  Python's `strptime` matches the
regular expression `(2[0-3]|[0-1]\d|\d):([0-5]\d|\d)` against the whole
string (it raises both on match failure and on unconverted trailing
data), so the accepted strings are exactly: a 1- or 2-digit hour in
0..23, a colon, and a 1- or 2-digit minute in 0..59, with nothing else.
The four list patterns below enumerate the possible digit counts. -/
def horaOk2 (h1 h2 : Char) : Bool :=
  (h1 == '2' && decide ('0' ≤ h2) && decide (h2 ≤ '3')) ||
    ((h1 == '0' || h1 == '1') && h2.isDigit)

/-- Second alternative `[0-5]\d` of the minute pattern. -/
def minutoOk2 (m1 m2 : Char) : Bool :=
  decide ('0' ≤ m1) && decide (m1 ≤ '5') && m2.isDigit

/-- See `horaOk2` for the derivation from `strptime`'s regex. -/
def validar_horario (s : String) : Bool :=
  match s.data with
  | [h1, ':', m1] => h1.isDigit && m1.isDigit
  | [h1, ':', m1, m2] => h1.isDigit && minutoOk2 m1 m2
  | [h1, h2, ':', m1] => horaOk2 h1 h2 && m1.isDigit
  | [h1, h2, ':', m1, m2] => horaOk2 h1 h2 && minutoOk2 m1 m2
  | _ => false

/-- Python's `str.strip()` with no argument: remove leading and
trailing whitespace.  (Defined over the character list so that it is
kernel-computable.) -/
def strip (s : String) : String :=
  ⟨((s.data.dropWhile Char.isWhitespace).reverse.dropWhile
      Char.isWhitespace).reverse⟩

/-- `Store.salvar` (src/main.py:54-56): writes the whole in-memory
document to the file. -/
def Store.salvar (s : Store) : Store :=
  { s with arquivo := Arquivo.doc s.dados }

/-- `Store.carregar` (src/main.py:44-52): if the file exists, try to
parse it (on any exception fall back to the empty document, without
writing the file); if it does not exist, persist the current in-memory
document. -/
def Store.carregar (s : Store) : Store :=
  match s.arquivo with
  | Arquivo.doc d => { s with dados := d }
  | Arquivo.corrompido => { s with dados := vazio }
  | Arquivo.ausente => s.salvar

/-- `Store.__init__` (src/main.py:39-42): installs the empty document
then calls `carregar`. -/
def Store.init (a : Arquivo) : Store :=
  Store.carregar { dados := vazio, arquivo := a }

/-- `Store.listar` (src/main.py:58-59): `self.dados.get("lembretes", [])`. -/
def Store.listar (s : Store) : List Item :=
  s.dados.lembretes.getD []

/-- The dict literal built inside `Store.adicionar` (src/main.py:62-68);
`ts` is `int(datetime.now().timestamp() * 1000)`. -/
def novoItem (texto horario : String) (ativo : Bool) (ts : Int) : Item :=
  { id := ts
  , texto := strip texto
  , horario := strip horario
  , ativo := ativo
  , ultimo_disparo_em := none }

/-- `Store.adicionar` (src/main.py:61-71): build the item,
`setdefault("lembretes", []).append(item)`, save, return the item.
There is no validation of `texto` or `horario` here. -/
def Store.adicionar (s : Store) (texto horario : String) (ativo : Bool) (ts : Int) :
    Store × Item :=
  let item := novoItem texto horario ativo ts
  let l := s.dados.lembretes.getD []
  let s' : Store := { s with dados := ⟨some (l ++ [item])⟩ }
  (s'.salvar, item)

/-- The keyword arguments of `Store.atualizar`.  The program only ever
passes (subsets of) these four fields; a `some` field is a full
replacement of that field's value, a `none` field is left untouched
(mirroring `dict.update`). -/
structure Campos where
  texto : Option String := none
  horario : Option String := none
  ativo : Option Bool := none
  ultimo_disparo_em : Option (Option String) := none
deriving DecidableEq

/-- `it.update(campos)` (src/main.py:76): each provided field replaces
the stored value; absent fields are unchanged. -/
def aplicar (it : Item) (c : Campos) : Item :=
  { id := it.id
  , texto := c.texto.getD it.texto
  , horario := c.horario.getD it.horario
  , ativo := c.ativo.getD it.ativo
  , ultimo_disparo_em := c.ultimo_disparo_em.getD it.ultimo_disparo_em }

/-- The error raised by `Store.atualizar` when no item has the id
(`KeyError("Item não encontrado")`, src/main.py:79); the specification
calls it `NotFoundError`. -/
inductive Erro where
  | keyError
deriving DecidableEq

/-- The loop of `Store.atualizar` (src/main.py:74-78): walk the list,
update the first item whose `id` matches, and return the new list and
the updated item; `none` when no item matches. -/
def atualizarList (c : Campos) (item_id : Int) : List Item → Option (List Item × Item)
  | [] => none
  | it :: rest =>
    if it.id = item_id then
      some (aplicar it c :: rest, aplicar it c)
    else
      (atualizarList c item_id rest).map (fun r => (it :: r.1, r.2))

/-- `Store.atualizar` (src/main.py:73-79): update the first matching
item in place, save, return it; raise `KeyError` when no id matches
(the document is untouched in that case — in particular a missing
`"lembretes"` key is not created). -/
def Store.atualizar (s : Store) (item_id : Int) (c : Campos) :
    Except Erro (Store × Item) :=
  match atualizarList c item_id (s.dados.lembretes.getD []) with
  | none => Except.error Erro.keyError
  | some (l, u) =>
    let s' : Store := { s with dados := ⟨some l⟩ }
    Except.ok (s'.salvar, u)

/-- `Store.remover` (src/main.py:81-83): filter the list (a missing
`"lembretes"` key is read as `[]` and the key is then assigned), save.
Removal of an absent id is a no-op on the list, not an error. -/
def Store.remover (s : Store) (item_id : Int) : Store :=
  let l := (s.dados.lembretes.getD []).filter (fun x => x.id != item_id)
  Store.salvar { s with dados := ⟨some l⟩ }

/-- `Store.exportar` (src/main.py:85-87): write the document to another
path; primary file and memory untouched.  Modelled as returning the
exported document. -/
def Store.exportar (s : Store) : Dados := s.dados

/-!  The scheduler (`Scheduler`, src/main.py:89-141).  `verificar` runs
once per poll cycle; its clock reads `agora_hhmm()` / `hoje_iso()` are
the parameters `hh` / `hoje`.  Observable actions are recorded as a
trace of events.  The native `plyer` notification (src/main.py:126-130)
is an optional external side effect wrapped in `try`/`except Exception:
pass`; it has no effect on any state modelled here and is not recorded.
The injected UI callbacks are modelled as always present, as in `App`
(src/main.py:151). -/

/-- Observable events of one poll cycle:
* `marca id d` — `store.atualizar(id, ultimo_disparo_em=hoje)` returned
  after successfully persisting, and `d` is the document it wrote to the
  file;
* `notifica id titulo mensagem` — the notification callback
  `ui_callback_popup(titulo, mensagem)` was invoked (the `id` of the
  reminder being processed is carried for bookkeeping; the source passes
  only the two strings);
* `status mensagem` — the status callback `ui_callback_status` was
  invoked at the end of the cycle. -/
inductive Ev where
  | marca (id : Int) (persistido : Dados)
  | notifica (id : Int) (titulo mensagem : String)
  | status (mensagem : String)
deriving DecidableEq

/-- The reminder id an event is about (`none` for the status event). -/
def evId : Ev → Option Int
  | Ev.marca i _ => some i
  | Ev.notifica i _ _ => some i
  | Ev.status _ => none

/-- The guard sequence of `Scheduler.verificar` (src/main.py:114-120)
collected into one boolean: the reminder is active, its `horario`
validates, it has not fired today, and its `horario` equals the current
minute. -/
def dispara (hh hoje : String) (it : Item) : Bool :=
  it.ativo && validar_horario it.horario &&
    !(it.ultimo_disparo_em == some hoje) && (it.horario == hh)

/-- The fired-mark update `{ultimo_disparo_em: hoje}` applied to an
item. -/
def marcar (hoje : String) (it : Item) : Item :=
  { it with ultimo_disparo_em := some hoje }

/-- The keyword argument of the scheduler's call
`store.atualizar(it["id"], ultimo_disparo_em=hoje)` (src/main.py:122). -/
def camposDisparo (hoje : String) : Campos :=
  { ultimo_disparo_em := some (some hoje) }

/-- The notification message `f"{it['horario']} - {it['texto']}"`
(src/main.py:124). -/
def mensagemDe (it : Item) : String :=
  it.horario ++ " - " ++ it.texto

/-- The scheduler's fired-mark update with an injected persistence
failure: `Store.atualizar` mutates the matched item in place *before*
`salvar`, so if `salvar` raises (`fail = true`) the in-memory document
already carries the mark while the file is stale; the exception
propagates (second component `true`).  An absent id would raise
`KeyError`, also propagated. -/
def atualizarDisparo (s : Store) (item_id : Int) (hoje : String) (fail : Bool) :
    Store × Bool :=
  match atualizarList (camposDisparo hoje) item_id (s.dados.lembretes.getD []) with
  | none => (s, true)
  | some (l, _) =>
    let s' : Store := { s with dados := ⟨some l⟩ }
    if fail then (s', true) else (s'.salvar, false)

/-- The `for it in list(self.store.listar())` loop of
`Scheduler.verificar` (src/main.py:113-136), processing the snapshot
list while threading the store.  `updFail id` injects a persistence
failure into the fired-mark update for that id (the exception leaves the
loop: third component `true`); `popFail id` makes the notification
callback raise, which the source catches (src/main.py:133-136), so both
arms of the `match` continue identically. -/
def verificarLoop (hh hoje : String) (updFail popFail : Int → Bool) :
    List Item → Store → List Ev → Store × List Ev × Bool
  | [], s, acc => (s, acc, false)
  | it :: rest, s, acc =>
    if !it.ativo then
      verificarLoop hh hoje updFail popFail rest s acc
    else if !validar_horario it.horario then
      verificarLoop hh hoje updFail popFail rest s acc
    else if it.ultimo_disparo_em == some hoje then
      verificarLoop hh hoje updFail popFail rest s acc
    else if it.horario == hh then
      let r := atualizarDisparo s it.id hoje (updFail it.id)
      if r.2 then
        (r.1, acc, true)
      else
        let acc' := acc ++
          [Ev.marca it.id r.1.dados, Ev.notifica it.id "Lembrete" (mensagemDe it)]
        let popupRes : Except Unit Unit :=
          if popFail it.id then Except.error () else Except.ok ()
        match popupRes with
        | Except.ok _ => verificarLoop hh hoje updFail popFail rest r.1 acc'
        | Except.error _ => verificarLoop hh hoje updFail popFail rest r.1 acc'
    else
      verificarLoop hh hoje updFail popFail rest s acc

/-- `Scheduler.verificar` (src/main.py:110-141): run the loop on a
snapshot of the store's list; if no exception escaped, invoke the status
callback (src/main.py:137-141; its own failures are swallowed there and
do not affect any modelled state). -/
def verificar (hh hoje : String) (updFail popFail : Int → Bool) (s : Store) :
    Store × List Ev × Bool :=
  let r := verificarLoop hh hoje updFail popFail s.listar s []
  if r.2.2 then r
  else (r.1, r.2.1 ++ [Ev.status ("Monitorando — " ++ hh)], false)

/-- The clock readings and failure injections of one poll cycle of
`Scheduler.run`. -/
structure CycleIn where
  hh : String
  hoje : String
  updFail : Int → Bool
  popFail : Int → Bool

/-- The scheduler loop `Scheduler.run` (src/main.py:102-108) unrolled
over a finite list of cycles: each cycle runs `verificar` inside
`try`/`except Exception`, so an escaped exception (third component of
`verificar`) is printed and swallowed and the loop continues with the
next cycle; per-cycle traces are collected. -/
def runCycles : List CycleIn → Store → Store × List (List Ev)
  | [], s => (s, [])
  | c :: cs, s =>
    let r := verificar c.hh c.hoje c.updFail c.popFail s
    let rest := runCycles cs r.1
    (rest.1, r.2.1 :: rest.2)

/-!  The application layer calls that perform validation before reaching
the store (`App.adicionar`, src/main.py:225-236, and the `salvar`
closure of `App.editar`, src/main.py:251-256).  On invalid input they
show a warning dialog and return without touching the store; no
exception is raised. -/

/-- `App.adicionar` (src/main.py:225-236) restricted to its store
effect: `true` in the second component means the reminder was added. -/
def appAdicionar (s : Store) (txtRaw hhRaw : String) (ts : Int) : Store × Bool :=
  let txt := strip txtRaw
  let hh := strip hhRaw
  if txt = "" then (s, false)
  else if validar_horario hh then ((s.adicionar txt hh true ts).1, true)
  else (s, false)

/-- The `salvar` closure of `App.editar` (src/main.py:251-256)
restricted to its store effect; a `KeyError` from `atualizar` (deleted
id) would propagate to Tk with the store unchanged, also `false` here. -/
def appEditarSalvar (s : Store) (sel : Int) (ntxtRaw nhRaw : String) : Store × Bool :=
  let ntxt := strip ntxtRaw
  let nh := strip nhRaw
  if ntxt = "" then (s, false)
  else if validar_horario nh then
    match s.atualizar sel { texto := some ntxt, horario := some nh } with
    | Except.ok (s', _) => (s', true)
    | Except.error _ => (s, false)
  else (s, false)

/-- One `Add` call's arguments, with the millisecond timestamp `ts` the
source reads from the clock (src/main.py:63). -/
structure AddCall where
  texto : String
  horario : String
  ativo : Bool
  ts : Int
deriving DecidableEq

/-- A sequence of `Store.adicionar` calls. -/
def addAll : Store → List AddCall → Store
  | s, [] => s
  | s, c :: cs => addAll (s.adicionar c.texto c.horario c.ativo c.ts).1 cs

/-!  The persisted JSON format.  `salvar` writes `json.dump(self.dados)`
and `carregar` reads `json.load`; the Python `json` library round-trips
JSON values (text encoding/decoding), so serialization is modelled at
the JSON-value level: `J` is a JSON value, `dadosToJ` is the value
`json.dump` receives, and the `...OfJ` functions read the fields of a
loaded value exactly the way the program does (by key). -/

/-- JSON values. -/
inductive J where
  | null
  | jbool (b : Bool)
  | jnum (n : Int)
  | jstr (s : String)
  | jarr (elems : List J)
  | jobj (fields : List (String × J))

/-- Key lookup in a JSON object (the encoder below emits each key once,
so first-match lookup agrees with the Python dict). -/
def objGet : List (String × J) → String → Option J
  | [], _ => none
  | (k2, v) :: rest, k => if k2 = k then some v else objGet rest k

/-- The JSON value of one reminder dict. -/
def itemToJ (it : Item) : J :=
  J.jobj
    [ ("id", J.jnum it.id)
    , ("texto", J.jstr it.texto)
    , ("horario", J.jstr it.horario)
    , ("ativo", J.jbool it.ativo)
    , ("ultimo_disparo_em",
        match it.ultimo_disparo_em with
        | none => J.null
        | some s => J.jstr s) ]

/-- Reading one reminder back from a loaded JSON value, field by field
with the types the program stores. -/
def itemOfJ : J → Option Item
  | J.jobj f =>
    match objGet f "id", objGet f "texto", objGet f "horario",
        objGet f "ativo", objGet f "ultimo_disparo_em" with
    | some (J.jnum i), some (J.jstr t), some (J.jstr h),
        some (J.jbool a), some u =>
      match u with
      | J.null => some ⟨i, t, h, a, none⟩
      | J.jstr s => some ⟨i, t, h, a, some s⟩
      | _ => none
    | _, _, _, _, _ => none
  | _ => none

/-- Reading back a list of reminders. -/
def decodeItens : List J → Option (List Item)
  | [] => some []
  | j :: rest =>
    match itemOfJ j, decodeItens rest with
    | some it, some l => some (it :: l)
    | _, _ => none

/-- The JSON value of the whole document (the `"lembretes"` key is
present exactly when the dict has it). -/
def dadosToJ (d : Dados) : J :=
  match d.lembretes with
  | none => J.jobj []
  | some l => J.jobj [("lembretes", J.jarr (l.map itemToJ))]

/-- Reading the whole document back from a loaded JSON value. -/
def dadosOfJ : J → Option Dados
  | J.jobj f =>
    match objGet f "lembretes" with
    | none => some ⟨none⟩
    | some (J.jarr es) => (decodeItens es).map (fun l => ⟨some l⟩)
    | some _ => none
  | _ => none

/-!  A pure, store-free description of one poll cycle, used to
characterize `verificarLoop` on stores whose reminder ids are pairwise
distinct (`verificarLoop_spec` below).  `pre` is the already-processed
prefix of the snapshot (needed to state which whole document each
successful fired-mark update persists). -/

/-- An item after the cycle: marked if it fired, untouched otherwise. -/
def markIf (hh hoje : String) (it : Item) : Item :=
  if dispara hh hoje it then marcar hoje it else it

/-- Pure recursion mirroring `verificarLoop` on a distinct-id store:
returns the processed list, the final file state, the events, and
whether an exception escaped. -/
def procPure (hh hoje : String) (updFail : Int → Bool) :
    List Item → List Item → Arquivo → List Item × Arquivo × List Ev × Bool
  | [], _pre, a => ([], a, [], false)
  | it :: rest, pre, a =>
    if dispara hh hoje it then
      if updFail it.id then
        (marcar hoje it :: rest, a, [], true)
      else
        let d' : Dados := ⟨some (pre ++ marcar hoje it :: rest)⟩
        let r := procPure hh hoje updFail rest (pre ++ [marcar hoje it]) (Arquivo.doc d')
        (marcar hoje it :: r.1, r.2.1,
          Ev.marca it.id d' :: Ev.notifica it.id "Lembrete" (mensagemDe it) :: r.2.2.1,
          r.2.2.2)
    else
      let r := procPure hh hoje updFail rest (pre ++ [it]) a
      (it :: r.1, r.2.1, r.2.2.1, r.2.2.2)

/-!  Helper lemmas. -/

/-- `id`-distinctness makes elements of a list determined by their id. -/
lemma nodup_id_inj {l : List Item} (h : (l.map Item.id).Nodup)
    {x y : Item} (hx : x ∈ l) (hy : y ∈ l) (hid : x.id = y.id) : x = y :=
  List.inj_on_of_nodup_map h hx hy hid

/-- In an id-distinct list `pre ++ it :: rest`, nothing in `pre` has
`it`'s id. -/
lemma nodup_pre_ne {pre rest : List Item} {it : Item}
    (h : (((pre ++ it :: rest)).map Item.id).Nodup) :
    ∀ x ∈ pre, x.id ≠ it.id := by
  intro x hx heq
  rw [List.map_append, List.nodup_append] at h
  exact h.2.2 (List.mem_map_of_mem Item.id hx) (by simp [heq])

/-- `atualizarList` on a list whose first occurrence of `item_id` is
`it` updates exactly that occurrence. -/
lemma atualizarList_found (c : Campos) (it : Item) :
    ∀ (pre : List Item), (∀ x ∈ pre, x.id ≠ it.id) → ∀ (rest : List Item),
      atualizarList c it.id (pre ++ it :: rest) =
        some (pre ++ aplicar it c :: rest, aplicar it c) := by
  intro pre
  induction pre with
  | nil => intro _ rest; simp [atualizarList]
  | cons p ps ih =>
    intro hpre rest
    have hp : ¬ p.id = it.id := hpre p (List.mem_cons_self p ps)
    have ihs := ih (fun x hx => hpre x (List.mem_cons_of_mem p hx)) rest
    simp [atualizarList, hp, ihs]

/-- The fired-mark kwargs act as `marcar`. -/
lemma aplicar_camposDisparo (hoje : String) (it : Item) :
    aplicar it (camposDisparo hoje) = marcar hoje it := rfl

/-- Explicit form of `atualizarDisparo` on an id-distinct store. -/
lemma atualizarDisparo_eq (hoje : String) (fail : Bool)
    (pre rest : List Item) (it : Item) (a : Arquivo)
    (hpre : ∀ x ∈ pre, x.id ≠ it.id) :
    atualizarDisparo ⟨⟨some (pre ++ it :: rest)⟩, a⟩ it.id hoje fail =
      (if fail then
        (⟨⟨some (pre ++ marcar hoje it :: rest)⟩, a⟩, true)
      else
        (⟨⟨some (pre ++ marcar hoje it :: rest)⟩,
          Arquivo.doc ⟨some (pre ++ marcar hoje it :: rest)⟩⟩, false)) := by
  have hfound := atualizarList_found (camposDisparo hoje) it pre hpre rest
  rw [aplicar_camposDisparo] at hfound
  cases fail <;> simp [atualizarDisparo, Store.salvar, hfound]

/-- Characterization of the scheduler loop on a store whose reminder
ids are pairwise distinct: it behaves as the pure recursion `procPure`
on the snapshot. -/
lemma verificarLoop_spec (hh hoje : String) (updFail popFail : Int → Bool) :
    ∀ (pending pre : List Item) (a : Arquivo) (acc : List Ev),
      ((pre ++ pending).map Item.id).Nodup →
      verificarLoop hh hoje updFail popFail pending ⟨⟨some (pre ++ pending)⟩, a⟩ acc =
        (⟨⟨some (pre ++ (procPure hh hoje updFail pending pre a).1)⟩,
          (procPure hh hoje updFail pending pre a).2.1⟩,
         acc ++ (procPure hh hoje updFail pending pre a).2.2.1,
         (procPure hh hoje updFail pending pre a).2.2.2) := by
  intro pending
  induction pending with
  | nil =>
    intro pre a acc _
    simp [verificarLoop, procPure]
  | cons it rest ih =>
    intro pre a acc hnd
    have hnd' : (((pre ++ [it]) ++ rest).map Item.id).Nodup := by simpa using hnd
    have skipCase : dispara hh hoje it = false →
        verificarLoop hh hoje updFail popFail rest ⟨⟨some (pre ++ it :: rest)⟩, a⟩ acc =
          (⟨⟨some (pre ++ (procPure hh hoje updFail (it :: rest) pre a).1)⟩,
            (procPure hh hoje updFail (it :: rest) pre a).2.1⟩,
           acc ++ (procPure hh hoje updFail (it :: rest) pre a).2.2.1,
           (procPure hh hoje updFail (it :: rest) pre a).2.2.2) := by
      intro hd
      rw [show pre ++ it :: rest = (pre ++ [it]) ++ rest by simp]
      rw [ih (pre ++ [it]) a acc hnd']
      simp [procPure, hd]
    cases hA : it.ativo with
    | false =>
      have hd : dispara hh hoje it = false := by simp [dispara, hA]
      rw [show verificarLoop hh hoje updFail popFail (it :: rest)
            ⟨⟨some (pre ++ it :: rest)⟩, a⟩ acc =
          verificarLoop hh hoje updFail popFail rest
            ⟨⟨some (pre ++ it :: rest)⟩, a⟩ acc by simp [verificarLoop, hA]]
      exact skipCase hd
    | true =>
      cases hV : validar_horario it.horario with
      | false =>
        have hd : dispara hh hoje it = false := by simp [dispara, hV]
        rw [show verificarLoop hh hoje updFail popFail (it :: rest)
              ⟨⟨some (pre ++ it :: rest)⟩, a⟩ acc =
            verificarLoop hh hoje updFail popFail rest
              ⟨⟨some (pre ++ it :: rest)⟩, a⟩ acc by simp [verificarLoop, hA, hV]]
        exact skipCase hd
      | true =>
        cases hU : it.ultimo_disparo_em == some hoje with
        | true =>
          have hd : dispara hh hoje it = false := by simp [dispara, hU]
          rw [show verificarLoop hh hoje updFail popFail (it :: rest)
                ⟨⟨some (pre ++ it :: rest)⟩, a⟩ acc =
              verificarLoop hh hoje updFail popFail rest
                ⟨⟨some (pre ++ it :: rest)⟩, a⟩ acc by simp [verificarLoop, hA, hV, hU]]
          exact skipCase hd
        | false =>
          cases hH : it.horario == hh with
          | false =>
            have hd : dispara hh hoje it = false := by simp [dispara, hH]
            rw [show verificarLoop hh hoje updFail popFail (it :: rest)
                  ⟨⟨some (pre ++ it :: rest)⟩, a⟩ acc =
                verificarLoop hh hoje updFail popFail rest
                  ⟨⟨some (pre ++ it :: rest)⟩, a⟩ acc by
                simp [verificarLoop, hA, hV, hU, hH]]
            exact skipCase hd
          | true =>
            have hd : dispara hh hoje it = true := by simp [dispara, hA, hV, hU, hH]
            have hpre := nodup_pre_ne hnd
            have hAD := atualizarDisparo_eq hoje (updFail it.id) pre rest it a hpre
            cases hF : updFail it.id with
            | true =>
              rw [hF, if_pos rfl] at hAD
              rw [show verificarLoop hh hoje updFail popFail (it :: rest)
                    ⟨⟨some (pre ++ it :: rest)⟩, a⟩ acc =
                  ((⟨⟨some (pre ++ marcar hoje it :: rest)⟩, a⟩ : Store), acc, true) from by
                simp [verificarLoop, hA, hV, hU, hH, hAD, hF]]
              simp [procPure, hd, hF]
            | false =>
              rw [hF] at hAD
              rw [if_neg (by simp)] at hAD
              have hnd'' : (((pre ++ [marcar hoje it]) ++ rest).map Item.id).Nodup := by
                simpa [marcar] using hnd
              have ihx := ih (pre ++ [marcar hoje it])
                (Arquivo.doc ⟨some (pre ++ marcar hoje it :: rest)⟩)
                (acc ++ [Ev.marca it.id ⟨some (pre ++ marcar hoje it :: rest)⟩,
                  Ev.notifica it.id "Lembrete" (mensagemDe it)]) hnd''
              rw [show verificarLoop hh hoje updFail popFail (it :: rest)
                    ⟨⟨some (pre ++ it :: rest)⟩, a⟩ acc =
                  verificarLoop hh hoje updFail popFail rest
                    ⟨⟨some (pre ++ marcar hoje it :: rest)⟩,
                      Arquivo.doc ⟨some (pre ++ marcar hoje it :: rest)⟩⟩
                    (acc ++ [Ev.marca it.id ⟨some (pre ++ marcar hoje it :: rest)⟩,
                      Ev.notifica it.id "Lembrete" (mensagemDe it)]) from by
                cases hp : popFail it.id <;>
                  simp [verificarLoop, hA, hV, hU, hH, hAD, hF, hp]]
              rw [show pre ++ marcar hoje it :: rest =
                  (pre ++ [marcar hoje it]) ++ rest by simp] at ihx ⊢
              rw [ihx]
              simp [procPure, hd, hF]

/-- Each snapshot item ends the cycle either untouched or (when it
fired) marked — for any injected persistence failures. -/
lemma procPure_rel (hh hoje : String) (updFail : Int → Bool) :
    ∀ (pending pre : List Item) (a : Arquivo),
      List.Forall₂ (fun x y => y = x ∨ (dispara hh hoje x = true ∧ y = marcar hoje x))
        pending (procPure hh hoje updFail pending pre a).1 := by
  intro pending
  induction pending with
  | nil => intro pre a; simp [procPure]
  | cons it rest ih =>
    intro pre a
    cases hd : dispara hh hoje it with
    | true =>
      cases hF : updFail it.id with
      | true =>
        simp only [procPure, hd, hF, if_true]
        exact List.Forall₂.cons (Or.inr ⟨hd, rfl⟩)
          (List.forall₂_same.mpr (fun x _ => Or.inl rfl))
      | false =>
        simp only [procPure, hd, hF, if_true, Bool.false_eq_true, if_false]
        exact List.Forall₂.cons (Or.inr ⟨hd, rfl⟩) (ih _ _)
    | false =>
      simp only [procPure, hd, Bool.false_eq_true, if_false]
      exact List.Forall₂.cons (Or.inl rfl) (ih _ _)

/-- Every event of a cycle belongs to a snapshot item that passed all
four firing guards — for any injected failures. -/
lemma procPure_events (hh hoje : String) (updFail : Int → Bool) :
    ∀ (pending pre : List Item) (a : Arquivo) (e : Ev),
      e ∈ (procPure hh hoje updFail pending pre a).2.2.1 →
      ∃ it, it ∈ pending ∧ dispara hh hoje it = true ∧
        ((∃ d, e = Ev.marca it.id d) ∨
          e = Ev.notifica it.id "Lembrete" (mensagemDe it)) := by
  intro pending
  induction pending with
  | nil => intro pre a e he; simp [procPure] at he
  | cons it rest ih =>
    intro pre a e he
    cases hd : dispara hh hoje it with
    | true =>
      cases hF : updFail it.id with
      | true =>
        rw [procPure] at he
        simp [hd, hF] at he
      | false =>
        rw [procPure] at he
        simp only [hd, hF, if_true, Bool.false_eq_true, if_false,
          List.mem_cons] at he
        rcases he with rfl | he
        · exact ⟨it, List.mem_cons_self it rest, hd, Or.inl ⟨_, rfl⟩⟩
        rcases he with rfl | he
        · exact ⟨it, List.mem_cons_self it rest, hd, Or.inr rfl⟩
        · obtain ⟨x, hx, hdx, hex⟩ := ih _ _ e he
          exact ⟨x, List.mem_cons_of_mem it hx, hdx, hex⟩
    | false =>
      rw [procPure] at he
      simp only [hd, Bool.false_eq_true, if_false] at he
      obtain ⟨x, hx, hdx, hex⟩ := ih _ _ e he
      exact ⟨x, List.mem_cons_of_mem it hx, hdx, hex⟩

/-- With no persistence failure the processed list is the pointwise
`markIf` image and no exception escapes. -/
lemma procPure_noFail (hh hoje : String) :
    ∀ (pending pre : List Item) (a : Arquivo),
      (procPure hh hoje (fun _ => false) pending pre a).1 =
          pending.map (markIf hh hoje) ∧
        (procPure hh hoje (fun _ => false) pending pre a).2.2.2 = false := by
  intro pending
  induction pending with
  | nil => intro pre a; simp [procPure]
  | cons it rest ih =>
    intro pre a
    cases hd : dispara hh hoje it with
    | true =>
      simp only [procPure, hd, if_true, Bool.false_eq_true, if_false]
      constructor
      · simp [markIf, hd, (ih _ _).1]
      · exact (ih _ _).2
    | false =>
      simp only [procPure, hd, Bool.false_eq_true, if_false]
      constructor
      · simp [markIf, hd, (ih _ _).1]
      · exact (ih _ _).2

/-- With no persistence failure, every firing item contributes — in
order — a `marca` event whose persisted document contains the marked
item, immediately followed by its notification event. -/
lemma procPure_noFail_sub (hh hoje : String) :
    ∀ (pending pre : List Item) (a : Arquivo) (it : Item),
      it ∈ pending → dispara hh hoje it = true →
      ∃ (d : Dados) (pre2 post : List Item),
        d = ⟨some (pre2 ++ marcar hoje it :: post)⟩ ∧
        List.Sublist [Ev.marca it.id d, Ev.notifica it.id "Lembrete" (mensagemDe it)]
          (procPure hh hoje (fun _ => false) pending pre a).2.2.1 := by
  intro pending
  induction pending with
  | nil => intro pre a it hm; simp at hm
  | cons x rest ih =>
    intro pre a it hm hd
    rcases List.mem_cons.mp hm with rfl | hm'
    · refine ⟨⟨some (pre ++ marcar hoje it :: rest)⟩, pre, rest, rfl, ?_⟩
      simp only [procPure, hd, if_true, Bool.false_eq_true, if_false]
      exact List.Sublist.cons₂ _ (List.Sublist.cons₂ _ (List.nil_sublist _))
    · cases hdx : dispara hh hoje x with
      | true =>
        obtain ⟨d, p2, po, hdoc, hsub⟩ :=
          ih (pre ++ [marcar hoje x]) (Arquivo.doc ⟨some (pre ++ marcar hoje x :: rest)⟩) it hm' hd
        refine ⟨d, p2, po, hdoc, ?_⟩
        simp only [procPure, hdx, if_true, Bool.false_eq_true, if_false]
        exact List.Sublist.cons _ (List.Sublist.cons _ hsub)
      | false =>
        obtain ⟨d, p2, po, hdoc, hsub⟩ := ih (pre ++ [x]) a it hm' hd
        refine ⟨d, p2, po, hdoc, ?_⟩
        simp only [procPure, hdx, Bool.false_eq_true, if_false]
        exact hsub

/-- Right-membership destructor for `Forall₂`. -/
lemma forall₂_mem_right {α β : Type} {R : α → β → Prop} :
    ∀ {l₁ : List α} {l₂ : List β}, List.Forall₂ R l₁ l₂ →
      ∀ {b : β}, b ∈ l₂ → ∃ a ∈ l₁, R a b := by
  intro l₁ l₂ h
  induction h with
  | nil => intro b hb; simp at hb
  | @cons a b l₁ l₂ hR _ ihr =>
    intro c hc
    rcases List.mem_cons.mp hc with rfl | hc'
    · exact ⟨a, List.mem_cons_self a l₁, hR⟩
    · obtain ⟨x, hx, hRx⟩ := ihr hc'
      exact ⟨x, List.mem_cons_of_mem a hx, hRx⟩

/-- `verificar` on a store with an id-distinct reminder list, in terms
of `procPure`: the status callback runs exactly when no exception
escaped the loop. -/
lemma verificar_spec (hh hoje : String) (updFail popFail : Int → Bool)
    (L : List Item) (a : Arquivo) (hnd : (L.map Item.id).Nodup) :
    verificar hh hoje updFail popFail ⟨⟨some L⟩, a⟩ =
      (⟨⟨some (procPure hh hoje updFail L [] a).1⟩,
        (procPure hh hoje updFail L [] a).2.1⟩,
       (if (procPure hh hoje updFail L [] a).2.2.2 then
          (procPure hh hoje updFail L [] a).2.2.1
        else (procPure hh hoje updFail L [] a).2.2.1 ++
          [Ev.status ("Monitorando — " ++ hh)]),
       (procPure hh hoje updFail L [] a).2.2.2) := by
  have hmain := verificarLoop_spec hh hoje updFail popFail L [] a []
    (by simpa using hnd)
  simp only [List.nil_append] at hmain
  unfold verificar
  simp only [Store.listar, Option.getD_some]
  rw [hmain]
  cases herr : (procPure hh hoje updFail L [] a).2.2.2 <;> simp [herr]

/-- First-occurrence decomposition of a list containing a given id. -/
lemma exists_first_id {item_id : Int} :
    ∀ (l : List Item), (∃ it ∈ l, it.id = item_id) →
      ∃ (pre : List Item) (it : Item) (post : List Item),
        l = pre ++ it :: post ∧ it.id = item_id ∧ ∀ x ∈ pre, x.id ≠ item_id := by
  intro l
  induction l with
  | nil => simp
  | cons y rest ih =>
    intro hex
    by_cases hy : y.id = item_id
    · exact ⟨[], y, rest, rfl, hy, by simp⟩
    · have hex' : ∃ it ∈ rest, it.id = item_id := by
        rcases hex with ⟨it, hit, hid⟩
        rcases List.mem_cons.mp hit with rfl | h
        · exact absurd hid hy
        · exact ⟨it, h, hid⟩
      obtain ⟨pre, it, post, heq, hid, hpre⟩ := ih hex'
      refine ⟨y :: pre, it, post, by simp [heq], hid, ?_⟩
      intro x hx
      rcases List.mem_cons.mp hx with rfl | h
      · exact hy
      · exact hpre x h

/-- `atualizarList` finds nothing when no item has the id. -/
lemma atualizarList_not_found (c : Campos) (item_id : Int) :
    ∀ (l : List Item), (∀ x ∈ l, x.id ≠ item_id) →
      atualizarList c item_id l = none := by
  intro l
  induction l with
  | nil => intro _; rfl
  | cons y rest ih =>
    intro h
    have hy : ¬ y.id = item_id := h y (List.mem_cons_self y rest)
    simp [atualizarList, hy, ih (fun x hx => h x (List.mem_cons_of_mem y hx))]

/-- The reminder list after a sequence of `adicionar` calls. -/
lemma addAll_listar :
    ∀ (cs : List AddCall) (s : Store),
      (addAll s cs).listar =
        s.listar ++ cs.map (fun c => novoItem c.texto c.horario c.ativo c.ts) := by
  intro cs
  induction cs with
  | nil => intro s; simp [addAll]
  | cons c rest ih =>
    intro s
    rw [addAll, ih]
    rw [show (s.adicionar c.texto c.horario c.ativo c.ts).1.listar =
        s.listar ++ [novoItem c.texto c.horario c.ativo c.ts] from rfl]
    simp

/-- One reminder round-trips through the JSON value level. -/
lemma itemOfJ_itemToJ (it : Item) : itemOfJ (itemToJ it) = some it := by
  obtain ⟨i, t, h, a, u⟩ := it
  cases u <;> rfl

/-- A reminder list round-trips through the JSON value level. -/
lemma decodeItens_map (l : List Item) : decodeItens (l.map itemToJ) = some l := by
  induction l with
  | nil => rfl
  | cons it rest ih => simp [decodeItens, itemOfJ_itemToJ, ih]

/-- `markIf` preserves ids. -/
lemma markIf_id (hh hoje : String) (x : Item) :
    (markIf hh hoje x).id = x.id := by
  unfold markIf
  split <;> rfl

/-- `markIf` preserves the id list. -/
lemma map_id_markIf (hh hoje : String) :
    ∀ (L : List Item), (L.map (markIf hh hoje)).map Item.id = L.map Item.id := by
  intro L
  induction L with
  | nil => rfl
  | cons x rest ih => simp [markIf_id, ih]

/-- `markIf` preserves id-distinctness. -/
lemma nodup_map_markIf (hh hoje : String) {L : List Item}
    (h : (L.map Item.id).Nodup) :
    ((L.map (markIf hh hoje)).map Item.id).Nodup := by
  rw [map_id_markIf]
  exact h

/-!  Claim theorems. -/

/-- C7: on construction, a missing file yields the empty in-memory
document which is immediately persisted to the path; an existing but
unreadable/malformed file yields the empty in-memory document while the
file at the path is left exactly as it was (not written during load). -/
theorem claim7_load_initialization :
    Store.init Arquivo.ausente = ⟨vazio, Arquivo.doc vazio⟩ ∧
    Store.init Arquivo.corrompido = ⟨vazio, Arquivo.corrompido⟩ :=
  ⟨rfl, rfl⟩

/-- C9: serializing the store's document to its persisted JSON format
and reading it back field-by-field (the way `carregar`'s consumer does)
yields the identical document — same reminders, field for field, in the
same order; and reloading a store from the file `salvar` just wrote
restores the identical in-memory document. -/
theorem claim9_roundtrip (s : Store) :
    dadosOfJ (dadosToJ s.dados) = some s.dados ∧
    (Store.init (Store.salvar s).arquivo).dados = s.dados := by
  refine ⟨?_, rfl⟩
  obtain ⟨ol⟩ := s.dados
  cases ol with
  | none => rfl
  | some l => simp [dadosToJ, dadosOfJ, objGet, decodeItens_map]

/-- C10: every store operation is total on a document lacking the
`"lembretes"` key: `listar` returns the empty list, `adicionar` creates
the key and appends (and persists), `remover` treats the sequence as
empty (and persists the now-present empty key), and `atualizar` reports
not-found without crashing. -/
theorem claim10_missing_key_total (texto horario : String) (ativo : Bool)
    (ts item_id : Int) (c : Campos) (a : Arquivo) :
    (Store.listar ⟨⟨none⟩, a⟩ = []) ∧
    ((Store.adicionar ⟨⟨none⟩, a⟩ texto horario ativo ts).1 =
      ⟨⟨some [novoItem texto horario ativo ts]⟩,
        Arquivo.doc ⟨some [novoItem texto horario ativo ts]⟩⟩) ∧
    (Store.remover ⟨⟨none⟩, a⟩ item_id = ⟨⟨some []⟩, Arquivo.doc ⟨some []⟩⟩) ∧
    (Store.atualizar ⟨⟨none⟩, a⟩ item_id c = Except.error Erro.keyError) :=
  ⟨rfl, rfl, rfl, rfl⟩

/-- C6: for an id present in the store, `atualizar` replaces exactly the
provided fields of the first (on id-distinct stores: the only) item with
that id, persists the whole document, and returns the updated record;
for an absent id it fails with the not-found error, leaving the store
untouched. -/
theorem claim6_update (s : Store) (item_id : Int) (c : Campos) :
    ((∃ it ∈ s.listar, it.id = item_id) →
      ∃ (pre : List Item) (it : Item) (post : List Item),
        s.listar = pre ++ it :: post ∧ it.id = item_id ∧
        (∀ x ∈ pre, x.id ≠ item_id) ∧
        s.atualizar item_id c =
          Except.ok (⟨⟨some (pre ++ aplicar it c :: post)⟩,
            Arquivo.doc ⟨some (pre ++ aplicar it c :: post)⟩⟩, aplicar it c)) ∧
    ((¬ ∃ it ∈ s.listar, it.id = item_id) →
      s.atualizar item_id c = Except.error Erro.keyError) := by
  constructor
  · intro hex
    obtain ⟨pre, it, post, heq, hid, hpre⟩ := exists_first_id s.listar hex
    refine ⟨pre, it, post, heq, hid, hpre, ?_⟩
    have hpre' : ∀ x ∈ pre, x.id ≠ it.id := by
      intro x hx; rw [hid]; exact hpre x hx
    have hfound := atualizarList_found c it pre hpre' post
    rw [hid] at hfound
    have hls : s.dados.lembretes.getD [] = pre ++ it :: post := heq
    rw [Store.atualizar, hls, hfound]
    rfl
  · intro hnone
    have hall : ∀ x ∈ s.listar, x.id ≠ item_id := by
      intro x hx hxid
      exact hnone ⟨x, hx, hxid⟩
    have := atualizarList_not_found c item_id s.listar hall
    rw [Store.atualizar]
    rw [show s.dados.lembretes.getD [] = s.listar from rfl, this]

/-- A concrete one-reminder store used by witnesses. -/
def sEx : Store :=
  ⟨⟨some [⟨7, "agua", "09:00", true, none⟩]⟩,
    Arquivo.doc ⟨some [⟨7, "agua", "09:00", true, none⟩]⟩⟩

/-- C6 witness: `claim6_update` at the concrete store `sEx`, updating
the present id 7 and the absent id 99. -/
theorem claim6_update_witness :
    (∃ (pre : List Item) (it : Item) (post : List Item),
      sEx.listar = pre ++ it :: post ∧ it.id = 7 ∧ (∀ x ∈ pre, x.id ≠ 7) ∧
      sEx.atualizar 7 { texto := some "cha" } =
        Except.ok (⟨⟨some (pre ++ aplicar it { texto := some "cha" } :: post)⟩,
          Arquivo.doc ⟨some (pre ++ aplicar it { texto := some "cha" } :: post)⟩⟩,
          aplicar it { texto := some "cha" })) ∧
    sEx.atualizar 99 { texto := some "cha" } = Except.error Erro.keyError :=
  ⟨(claim6_update sEx 7 { texto := some "cha" }).1
      ⟨⟨7, "agua", "09:00", true, none⟩, by decide, rfl⟩,
    (claim6_update sEx 99 { texto := some "cha" }).2 (by decide)⟩

/-- C2 is false as stated: `Store.adicionar` performs no validation, so
an `Add` with the malformed time `"25:99"` succeeds, changes the
document (in memory and on disk), and the invalid value enters the
store. -/
theorem claim2_counterexample :
    validar_horario "25:99" = false ∧
    ((Store.init Arquivo.ausente).adicionar "x" "25:99" true 5).1.dados ≠
      (Store.init Arquivo.ausente).dados ∧
    ((Store.init Arquivo.ausente).adicionar "x" "25:99" true 5).2 ∈
      ((Store.init Arquivo.ausente).adicionar "x" "25:99" true 5).1.listar ∧
    ((Store.init Arquivo.ausente).adicionar "x" "25:99" true 5).2.horario =
      "25:99" := by
  decide

/-- C2 amended: validation of the time-of-day and of non-empty text
happens in the application layer, not in the store: `App.adicionar` and
the edit dialog's save refuse malformed time or empty text *before*
calling the store (showing a warning rather than raising
`ValidationError`), leaving the store — in memory and persisted —
completely unchanged; `Store.adicionar`/`Store.atualizar` themselves
accept any values. -/
theorem claim2_amended_ui_validation (s : Store) (txtRaw hhRaw : String)
    (ts : Int) (sel : Int) (ntxtRaw nhRaw : String) :
    ((strip txtRaw = "" ∨ validar_horario (strip hhRaw) = false) →
      appAdicionar s txtRaw hhRaw ts = (s, false)) ∧
    ((strip ntxtRaw = "" ∨ validar_horario (strip nhRaw) = false) →
      appEditarSalvar s sel ntxtRaw nhRaw = (s, false)) := by
  constructor
  · rintro (h | h)
    · simp [appAdicionar, h]
    · by_cases ht : strip txtRaw = ""
      · simp [appAdicionar, ht]
      · simp [appAdicionar, ht, h]
  · rintro (h | h)
    · simp [appEditarSalvar, h]
    · by_cases ht : strip ntxtRaw = ""
      · simp [appEditarSalvar, ht]
      · simp [appEditarSalvar, ht, h]

/-- C2 amended witness: `claim2_amended_ui_validation` at the malformed
time `"25:99"` and at an empty text. -/
theorem claim2_amended_ui_validation_witness :
    appAdicionar sEx "x" "25:99" 5 = (sEx, false) ∧
    appEditarSalvar sEx 7 "" "09:00" = (sEx, false) :=
  ⟨(claim2_amended_ui_validation sEx "x" "25:99" 5 7 "" "09:00").1
      (Or.inr (by decide)),
    (claim2_amended_ui_validation sEx "x" "25:99" 5 7 "" "09:00").2
      (Or.inl (by decide))⟩

/-- C3 is false as stated: ids come from the millisecond timestamp, so
two `Add` calls falling in the same millisecond (here both with
timestamp 5) produce two reminders with the same id. -/
theorem claim3_counterexample :
    ¬ (((addAll (Store.init Arquivo.ausente)
        [⟨"a", "09:00", true, 5⟩, ⟨"b", "10:00", true, 5⟩]).listar.map
          Item.id).Nodup) := by
  decide

/-- C3 amended: for every sequence of `Add` calls whose creation
timestamps (millisecond clock readings) are pairwise distinct, the ids
of the resulting reminders are pairwise distinct. -/
theorem claim3_amended_unique_ids (cs : List AddCall)
    (h : (cs.map AddCall.ts).Nodup) :
    (((addAll (Store.init Arquivo.ausente) cs).listar).map Item.id).Nodup := by
  rw [addAll_listar]
  rw [show (Store.init Arquivo.ausente).listar = [] from rfl]
  simp only [List.nil_append, List.map_map]
  rw [show (Item.id ∘ fun c => novoItem c.texto c.horario c.ativo c.ts) =
      AddCall.ts from funext (fun c => rfl)]
  exact h

/-- C3 amended witness: two adds at distinct millisecond timestamps. -/
theorem claim3_amended_unique_ids_witness :
    (([⟨"a", "09:00", true, 5⟩, ⟨"b", "10:00", true, 6⟩] :
        List AddCall).map AddCall.ts).Nodup ∧
    (((addAll (Store.init Arquivo.ausente)
        [⟨"a", "09:00", true, 5⟩, ⟨"b", "10:00", true, 6⟩]).listar).map
          Item.id).Nodup :=
  ⟨by decide, claim3_amended_unique_ids _ (by decide)⟩

/-- C1: in a poll cycle at minute `hh` on date `hoje` (no persistence
failure injected, arbitrary notification-callback behaviour), a reminder
fires — its notification event is emitted — exactly when it is active,
its time validates and equals `hh`, and its `ultimo_disparo_em` is not
`hoje` (that conjunction is `dispara`); the resulting document marks
exactly the fired reminders with `hoje`.  Consequently a fired reminder
does not fire again in any later cycle on the same date, and fires again
when polled at its own minute on a different (next) date. -/
theorem claim1_once_per_day (s : Store) (L : List Item) (hh hoje : String)
    (popFail : Int → Bool)
    (hL : s.dados.lembretes = some L)
    (hnd : (L.map Item.id).Nodup) :
    (∀ it ∈ L,
      (Ev.notifica it.id "Lembrete" (mensagemDe it) ∈
          (verificar hh hoje (fun _ => false) popFail s).2.1) ↔
        dispara hh hoje it = true) ∧
    ((verificar hh hoje (fun _ => false) popFail s).1.dados.lembretes =
      some (L.map (markIf hh hoje))) ∧
    (∀ it ∈ L, dispara hh hoje it = true →
      ∀ (hh₂ : String) (popFail₂ : Int → Bool),
        Ev.notifica it.id "Lembrete" (mensagemDe it) ∉
          (verificar hh₂ hoje (fun _ => false) popFail₂
            (verificar hh hoje (fun _ => false) popFail s).1).2.1) ∧
    (∀ it ∈ L, dispara hh hoje it = true →
      ∀ (hoje₂ : String) (popFail₂ : Int → Bool), hoje₂ ≠ hoje →
        Ev.notifica it.id "Lembrete" (mensagemDe it) ∈
          (verificar it.horario hoje₂ (fun _ => false) popFail₂
            (verificar hh hoje (fun _ => false) popFail s).1).2.1) := by
  obtain ⟨⟨ol⟩, a⟩ := s
  have hol : ol = some L := hL
  subst hol
  have hspec := verificar_spec hh hoje (fun _ => false) popFail L a hnd
  have hNF := procPure_noFail hh hoje L [] a
  rw [hNF.1, hNF.2] at hspec
  simp only [Bool.false_eq_true, if_false] at hspec
  refine ⟨?_, ?_, ?_, ?_⟩
  · intro it hit
    rw [hspec]
    constructor
    · intro hin
      rcases List.mem_append.mp hin with hin | hin
      · obtain ⟨x, hx, hdx, hcase⟩ :=
          procPure_events hh hoje (fun _ => false) L [] a _ hin
        rcases hcase with ⟨d, hmar⟩ | hnot
        · exact absurd hmar (by simp)
        · have hid : x.id = it.id := by
            have := hnot
            simp only [Ev.notifica.injEq] at this
            exact this.1.symm
          have hxit : x = it := nodup_id_inj hnd hx hit hid
          rw [← hxit]
          exact hdx
      · exact absurd hin (by simp)
    · intro hd
      obtain ⟨d, p2, po, hdoc, hsub⟩ :=
        procPure_noFail_sub hh hoje L [] a it hit hd
      exact List.mem_append_left _ (hsub.subset (by simp))
  · rw [hspec]
  · intro it hit hd hh₂ popFail₂
    rw [hspec]
    have hnd₂ := nodup_map_markIf hh hoje hnd
    have hspec₂ :=
      verificar_spec hh₂ hoje (fun _ => false) popFail₂ (L.map (markIf hh hoje))
        (procPure hh hoje (fun _ => false) L [] a).2.1 hnd₂
    have hNF₂ :=
      procPure_noFail hh₂ hoje (L.map (markIf hh hoje)) []
        (procPure hh hoje (fun _ => false) L [] a).2.1
    rw [hNF₂.2] at hspec₂
    simp only [Bool.false_eq_true, if_false] at hspec₂
    rw [hspec₂]
    intro hin
    rcases List.mem_append.mp hin with hin | hin
    · obtain ⟨x, hx, hdx, hcase⟩ :=
        procPure_events hh₂ hoje (fun _ => false) (L.map (markIf hh hoje)) []
          (procPure hh hoje (fun _ => false) L [] a).2.1 _ hin
      rcases hcase with ⟨d, hmar⟩ | hnot
      · exact absurd hmar (by simp)
      · have hid : x.id = it.id := by
          have := hnot
          simp only [Ev.notifica.injEq] at this
          exact this.1.symm
        obtain ⟨y, hy, hyx⟩ := List.mem_map.mp hx
        have hyid : y.id = it.id := by
          rw [← hid, ← hyx, markIf_id]
        have hy_it : y = it := nodup_id_inj hnd hy hit hyid
        subst hy_it
        rw [← hyx] at hdx
        rw [show markIf hh hoje y = marcar hoje y from by simp [markIf, hd]] at hdx
        simp [dispara, marcar] at hdx
    · exact absurd hin (by simp)
  · intro it hit hd hoje₂ popFail₂ hne
    rw [hspec]
    have hnd₂ := nodup_map_markIf hh hoje hnd
    have hspec₂ :=
      verificar_spec it.horario hoje₂ (fun _ => false) popFail₂
        (L.map (markIf hh hoje))
        (procPure hh hoje (fun _ => false) L [] a).2.1 hnd₂
    have hNF₂ :=
      procPure_noFail it.horario hoje₂ (L.map (markIf hh hoje)) []
        (procPure hh hoje (fun _ => false) L [] a).2.1
    rw [hNF₂.2] at hspec₂
    simp only [Bool.false_eq_true, if_false] at hspec₂
    rw [hspec₂]
    have hmem₂ : marcar hoje it ∈ L.map (markIf hh hoje) := by
      refine List.mem_map.mpr ⟨it, hit, ?_⟩
      simp [markIf, hd]
    have hcomp : it.ativo = true ∧ validar_horario it.horario = true := by
      have := hd
      simp only [dispara, Bool.and_eq_true] at this
      exact ⟨this.1.1.1, this.1.1.2⟩
    have hd₂ : dispara it.horario hoje₂ (marcar hoje it) = true := by
      simp only [dispara, marcar, Bool.and_eq_true]
      refine ⟨⟨⟨hcomp.1, hcomp.2⟩, ?_⟩, ?_⟩
      · simp only [Bool.not_eq_true']
        exact beq_eq_false_iff_ne.mpr (by simp [Ne, hne.symm])
      · exact beq_self_eq_true it.horario
    obtain ⟨d, p2, po, hdoc, hsub⟩ :=
      procPure_noFail_sub it.horario hoje₂ (L.map (markIf hh hoje)) []
        (procPure hh hoje (fun _ => false) L [] a).2.1
        (marcar hoje it) hmem₂ hd₂
    exact List.mem_append_left _ (hsub.subset (by simp [marcar, mensagemDe]))

/-- C1 witness: `claim1_once_per_day` at the concrete store `sEx`: the
reminder with id 7 and time `"09:00"` fires in a poll cycle at `"09:00"`
on 2024-06-01. -/
theorem claim1_once_per_day_witness :
    Ev.notifica 7 "Lembrete" (mensagemDe ⟨7, "agua", "09:00", true, none⟩) ∈
      (verificar "09:00" "2024-06-01" (fun _ => false) (fun _ => false) sEx).2.1 :=
  ((claim1_once_per_day sEx [⟨7, "agua", "09:00", true, none⟩] "09:00"
      "2024-06-01" (fun _ => false) rfl (by decide)).1
    ⟨7, "agua", "09:00", true, none⟩ (by decide)).mpr (by decide)

/-- C5: with no persistence failure, (1) the entire outcome of a poll
cycle — final store, event trace, raised-flag — is independent of
whether the notification callback raises (its exception is swallowed, so
the fired-mark stays set and the remaining reminders are processed
identically), and (2) every firing reminder's successful, persisted
fired-mark update (whose written document contains the marked reminder)
appears in the trace immediately before its notification event. -/
theorem claim5_update_before_notify (s : Store) (L : List Item)
    (hh hoje : String)
    (hL : s.dados.lembretes = some L) (hnd : (L.map Item.id).Nodup) :
    (∀ (popFail₁ popFail₂ : Int → Bool),
      verificar hh hoje (fun _ => false) popFail₁ s =
        verificar hh hoje (fun _ => false) popFail₂ s) ∧
    (∀ (popFail : Int → Bool), ∀ it ∈ L, dispara hh hoje it = true →
      ∃ (d : Dados) (pre2 post : List Item),
        d = ⟨some (pre2 ++ marcar hoje it :: post)⟩ ∧
        List.Sublist
          [Ev.marca it.id d, Ev.notifica it.id "Lembrete" (mensagemDe it)]
          (verificar hh hoje (fun _ => false) popFail s).2.1) := by
  obtain ⟨⟨ol⟩, a⟩ := s
  have hol : ol = some L := hL
  subst hol
  constructor
  · intro p1 p2
    rw [verificar_spec hh hoje (fun _ => false) p1 L a hnd,
      verificar_spec hh hoje (fun _ => false) p2 L a hnd]
  · intro popFail it hit hd
    obtain ⟨d, p2, po, hdoc, hsub⟩ :=
      procPure_noFail_sub hh hoje L [] a it hit hd
    refine ⟨d, p2, po, hdoc, ?_⟩
    rw [verificar_spec hh hoje (fun _ => false) popFail L a hnd]
    have hNF := procPure_noFail hh hoje L [] a
    rw [hNF.2]
    simp only [Bool.false_eq_true, if_false]
    exact hsub.trans (List.sublist_append_left _ _)

/-- C5 witness: `claim5_update_before_notify` at the concrete store
`sEx`, with a notification callback that raises. -/
theorem claim5_update_before_notify_witness :
    ∃ (d : Dados) (pre2 post : List Item),
      d = ⟨some (pre2 ++ marcar "2024-06-01" ⟨7, "agua", "09:00", true, none⟩ :: post)⟩ ∧
      List.Sublist
        [Ev.marca 7 d,
          Ev.notifica 7 "Lembrete" (mensagemDe ⟨7, "agua", "09:00", true, none⟩)]
        (verificar "09:00" "2024-06-01" (fun _ => false) (fun _ => true) sEx).2.1 :=
  (claim5_update_before_notify sEx [⟨7, "agua", "09:00", true, none⟩] "09:00"
      "2024-06-01" rfl (by decide)).2
    (fun _ => true) ⟨7, "agua", "09:00", true, none⟩ (by decide) (by decide)

/-- C8: an inactive reminder never fires in a poll cycle, for any
failure injections: no event of the cycle (fired-mark persist or
notification) concerns its id, and its stored record — in particular its
`ultimo_disparo_em` — is unchanged. -/
theorem claim8_inactive_suppression (s : Store) (L : List Item)
    (hh hoje : String) (updFail popFail : Int → Bool)
    (hL : s.dados.lembretes = some L) (hnd : (L.map Item.id).Nodup) :
    ∀ it ∈ L, it.ativo = false →
      (∀ e ∈ (verificar hh hoje updFail popFail s).2.1, evId e ≠ some it.id) ∧
      (∀ x ∈ (verificar hh hoje updFail popFail s).1.listar,
        x.id = it.id → x = it) := by
  obtain ⟨⟨ol⟩, a⟩ := s
  have hol : ol = some L := hL
  subst hol
  intro it hit hia
  have hspec := verificar_spec hh hoje updFail popFail L a hnd
  constructor
  · intro e he
    rw [hspec] at he
    have he' : e ∈ (procPure hh hoje updFail L [] a).2.2.1 ∨
        e = Ev.status ("Monitorando — " ++ hh) := by
      by_cases her : (procPure hh hoje updFail L [] a).2.2.2 = true
      · rw [if_pos her] at he
        exact Or.inl he
      · rw [if_neg her] at he
        rcases List.mem_append.mp he with h | h
        · exact Or.inl h
        · simp only [List.mem_singleton] at h
          exact Or.inr h
    rcases he' with he' | rfl
    · obtain ⟨x, hx, hdx, hcase⟩ :=
        procPure_events hh hoje updFail L [] a e he'
      intro heid
      have hxid : x.id = it.id := by
        rcases hcase with ⟨d, rfl⟩ | rfl <;> simpa [evId] using heid
      have hxit : x = it := nodup_id_inj hnd hx hit hxid
      subst hxit
      simp [dispara, hia] at hdx
    · simp [evId]
  · intro x hx hxid
    rw [hspec] at hx
    have hx' : x ∈ (procPure hh hoje updFail L [] a).1 := by
      simpa [Store.listar] using hx
    obtain ⟨y, hy, hR⟩ :=
      forall₂_mem_right (procPure_rel hh hoje updFail L [] a) hx'
    rcases hR with rfl | ⟨hdy, rfl⟩
    · exact nodup_id_inj hnd hy hit hxid
    · have hyid : y.id = it.id := hxid
      have hy_it : y = it := nodup_id_inj hnd hy hit hyid
      subst hy_it
      simp [dispara, hia] at hdy

/-- A concrete store whose only reminder is inactive yet due. -/
def sInativo : Store :=
  ⟨⟨some [⟨3, "cafe", "09:00", false, none⟩]⟩,
    Arquivo.doc ⟨some [⟨3, "cafe", "09:00", false, none⟩]⟩⟩

/-- C8 witness: `claim8_inactive_suppression` for the inactive reminder
of `sInativo` at its own matching minute. -/
theorem claim8_inactive_suppression_witness :
    (∀ e ∈ (verificar "09:00" "2024-06-01" (fun _ => false) (fun _ => false)
        sInativo).2.1, evId e ≠ some 3) ∧
    (∀ x ∈ (verificar "09:00" "2024-06-01" (fun _ => false) (fun _ => false)
        sInativo).1.listar,
      x.id = 3 → x = ⟨3, "cafe", "09:00", false, none⟩) :=
  claim8_inactive_suppression sInativo [⟨3, "cafe", "09:00", false, none⟩]
    "09:00" "2024-06-01" (fun _ => false) (fun _ => false) rfl (by decide)
    ⟨3, "cafe", "09:00", false, none⟩ (by decide) rfl

/-- A concrete store with two active reminders both due at 09:00. -/
def sDue : Store :=
  ⟨⟨some [⟨1, "a", "09:00", true, none⟩, ⟨2, "b", "09:00", true, none⟩]⟩,
    Arquivo.doc ⟨some [⟨1, "a", "09:00", true, none⟩,
      ⟨2, "b", "09:00", true, none⟩]⟩⟩

/-- C4 is false as stated: in a cycle where persisting reminder 1's
fired-mark raises, the exception escapes `verificar` (it is caught one
level up, in the `run` loop), so the also-due reminder 2 is *not*
evaluated in that same cycle: the cycle's trace is empty and reminder 2
stays unmarked. -/
theorem claim4_counterexample :
    dispara "09:00" "2024-06-01" ⟨2, "b", "09:00", true, none⟩ = true ∧
    (verificar "09:00" "2024-06-01" (fun i => i == 1) (fun _ => false)
      sDue).2.2 = true ∧
    (verificar "09:00" "2024-06-01" (fun i => i == 1) (fun _ => false)
      sDue).2.1 = [] ∧
    (verificar "09:00" "2024-06-01" (fun i => i == 1) (fun _ => false)
      sDue).1.listar.map Item.ultimo_disparo_em =
      [some "2024-06-01", none] := by
  decide

/-- C4 amended: an exception raised while evaluating a reminder or
persisting its fired-mark is caught by the scheduler loop and never
terminates it — every scheduled cycle still runs — but it aborts the
remainder of the cycle it occurs in: the reminders after the failing one
are only evaluated again in the next cycle (shown concretely: after the
failing cycle above, the next cycle fires the skipped reminder 2). -/
theorem claim4_amended_cycle_abort :
    (∀ (ins : List CycleIn) (s : Store),
      (runCycles ins s).2.length = ins.length) ∧
    ((runCycles
        [⟨"09:00", "2024-06-01", fun i => i == 1, fun _ => false⟩,
          ⟨"09:00", "2024-06-01", fun _ => false, fun _ => false⟩]
        sDue).2.map (fun evs => evs.map evId) =
      [[], [some 2, some 2, none]]) ∧
    ((runCycles
        [⟨"09:00", "2024-06-01", fun i => i == 1, fun _ => false⟩,
          ⟨"09:00", "2024-06-01", fun _ => false, fun _ => false⟩]
        sDue).1.listar.map Item.ultimo_disparo_em =
      [some "2024-06-01", some "2024-06-01"]) := by
  refine ⟨?_, by decide, by decide⟩
  intro ins
  induction ins with
  | nil => intro s; rfl
  | cons c cs ih => intro s; simp [runCycles, ih]

end Lembretes







